import Mathlib

/-!
Shallow embedding of the core pipeline of the ai-trend-monitor repository
(src/processors/{deduplicator,classifier,filter,scorer}.py,
src/storage/json_store.py, src/rag/{vector_store,rag_client}.py).

Modelling conventions, used throughout:
* Python `str` is Lean `String`; byte-level operations are performed on
  `String.toList` (`List Char`).
* `datetime` values are modelled as rational UTC timestamps in seconds
  (`ℚ`); `timedelta(days=d)` is `d * 86400`, `timedelta(hours=h)` is
  `h * 3600`.  `datetime.now(timezone.utc)` becomes an explicit `now`
  parameter.
* Python floats are modelled as exact rationals `ℚ`; `int` is `ℤ`.
* Python sets of strings are modelled as lists with membership tests,
  and dicts as association lists (`List (String × _)`, insertion order
  preserved, exactly as CPython guarantees).
-/

namespace AITrend

/-- The `Item` dataclass of `src/fetchers/base_fetcher.py`.  The open
`extra: dict` bag is modelled as an association list of its numeric
entries (`stars` is the only key the embedded code reads). -/
structure Item where
  title : String
  url : String
  source : String
  source_type : String
  category : String
  published_at : ℚ
  content : String := ""
  score : ℚ := 0
  is_breaking_change : Bool := false
  tags : List String := []
  raw_score : ℤ := 0
  extra : List (String × ℚ) := []
deriving DecidableEq, Repr

/-- `extra.get(key, default)` on the modelled `extra` bag. -/
def extraGet (e : List (String × ℚ)) (key : String) (dflt : ℚ) : ℚ :=
  (e.lookup key).getD dflt

/-! ## Deduplicator (`src/processors/deduplicator.py`) -/

/-- `url.rstrip("/")` for the single character `/`: drop every trailing
slash. -/
def rstripSlashes (l : List Char) : List Char :=
  (l.reverse.dropWhile (fun c => c = '/')).reverse

/-- `s.replace("http://", "https://")`: left-to-right, non-overlapping
replacement of every occurrence, exactly as Python `str.replace`. -/
def replaceHttp : List Char → List Char
  | 'h' :: 't' :: 't' :: 'p' :: ':' :: '/' :: '/' :: rest =>
      'h' :: 't' :: 't' :: 'p' :: 's' :: ':' :: '/' :: '/' :: replaceHttp rest
  | c :: cs => c :: replaceHttp cs
  | [] => []

/-- `Deduplicator._norm`:
`url.rstrip("/").replace("http://", "https://").lower()`. -/
def normUrl (url : String) : String :=
  ((replaceHttp (rstripSlashes url.toList)).map Char.toLower).asString

/-- The loop body of `Deduplicator.deduplicate`: walk the batch in order,
keep an item iff its normalized URL has not been seen, recording kept
normalized URLs in `seen`. -/
def dedupeLoop (seen : List String) : List Item → List Item
  | [] => []
  | item :: rest =>
      let n := normUrl item.url
      if n ∈ seen then dedupeLoop seen rest
      else item :: dedupeLoop (n :: seen) rest

/-- `Deduplicator.deduplicate`: seed `seen` with the normalized
`existing_urls` (the constructor argument), then run the loop. -/
def deduplicate (existing_urls : List String) (items : List Item) : List Item :=
  dedupeLoop (existing_urls.map normUrl) items

/-! ## Classifier (`src/processors/classifier.py`) -/

/-- The fixed `BREAKING_KEYWORDS` lexicon. -/
def BREAKING_KEYWORDS : List String :=
  ["breaking change", "breaking:", "breaking -", "deprecated", "deprecation",
   "removed in", "removal of", "migration guide", "migration required",
   "incompatible", "backward incompatible", "no longer supported"]

/-- The fixed `CATEGORY_PRIORITY` order. -/
def CATEGORY_PRIORITY : List String :=
  ["framework", "llm", "rag", "agent", "workflow"]

/-- Python `needle in hay` on character lists: contiguous substring test. -/
def isSubList (needle : List Char) : List Char → Bool
  | [] => needle.isEmpty
  | c :: cs => needle.isPrefixOf (c :: cs) || isSubList needle cs

/-- Python `needle in hay` on strings. -/
def occursIn (needle hay : String) : Bool :=
  isSubList needle.toList hay.toList

/-- Python `s.lower()`: per-character lower-casing. -/
def pyLower (s : String) : String :=
  (s.toList.map Char.toLower).asString

/-- The `Classifier.__init__` normalisation of `keywords_config`: lower-case
every keyword, keeping the mapping's insertion order. -/
def mkClassifierKw (cfg : List (String × List String)) : List (String × List String) :=
  cfg.map (fun p => (p.1, p.2.map pyLower))

/-- `self.kw.get(cat, [])`. -/
def kwGet (kw : List (String × List String)) (cat : String) : List String :=
  (kw.lookup cat).getD []

/-- `Classifier._detect_category`: first category of `CATEGORY_PRIORITY`
with any keyword occurring in the haystack, else `"other"`. -/
def detectCategory (kw : List (String × List String)) (text : String) : String :=
  match CATEGORY_PRIORITY.find? (fun cat => (kwGet kw cat).any (fun w => occursIn w text)) with
  | some c => c
  | none => "other"

/-- The inner `for w in words` loop of `Classifier._extract_tags`: append the
first word of the group that occurs in the text and is not already a tag,
then break out of the group. -/
def addGroupTag (text : String) (tags : List String) : List String → List String
  | [] => tags
  | w :: ws =>
      if occursIn w text = true ∧ w ∉ tags then tags ++ [w]
      else addGroupTag text tags ws

/-- `Classifier._extract_tags`: start from `[category]`, scan each keyword
group once in mapping order, cap at 5 tags. -/
def extractTags (kw : List (String × List String)) (text : String) (category : String) :
    List String :=
  (kw.foldl (fun tags p => addGroupTag text tags p.2) [category]).take 5

/-- The per-item body of `Classifier.classify`: lower-cased haystack
`title + " " + content`; category recomputed unless pinned `"paper"`;
`is_breaking_change` recomputed from the fixed lexicon; tags rebuilt. -/
def classifyItem (kw : List (String × List String)) (item : Item) : Item :=
  let text := pyLower (item.title ++ " " ++ item.content)
  let category := if item.category = "paper" then item.category else detectCategory kw text
  { item with
      category := category
      is_breaking_change := BREAKING_KEYWORDS.any (fun k => occursIn k text)
      tags := extractTags kw text category }

/-- `Classifier.classify` over a batch. -/
def classify (kw : List (String × List String)) (items : List Item) : List Item :=
  items.map (classifyItem kw)

/-! ## ThresholdFilter (`src/processors/filter.py`) -/

/-- Python `s.strip()`: drop leading and trailing whitespace. -/
def pyStrip (s : String) : String :=
  (((s.toList.dropWhile Char.isWhitespace).reverse.dropWhile Char.isWhitespace).reverse).asString

/-- `ThresholdFilter._passes`: title/URL non-blank, HN minimum score
(`config.get("hacker_news_min", 50)`), and `published_at` at most one hour
in the future of `now`. -/
def passesItem (config : List (String × ℚ)) (now : ℚ) (item : Item) : Bool :=
  if pyStrip item.title = "" ∨ pyStrip item.url = "" then false
  else if item.source_type = "hn" ∧ (item.raw_score : ℚ) < extraGet config "hacker_news_min" 50 then false
  else if item.published_at > now + 3600 then false
  else true

/-- `ThresholdFilter.filter`: the admitted subsequence, in input order. -/
def filterItems (config : List (String × ℚ)) (now : ℚ) (items : List Item) : List Item :=
  items.filter (passesItem config now)

/-! ## Scorer (`src/processors/scorer.py`) -/

/-- `Scorer.SOURCE_W`. -/
def SOURCE_W : List (String × ℚ) :=
  [("rss", 30), ("github", 25), ("pwc", 22), ("hn", 18)]

/-- `Scorer.CATEGORY_W`. -/
def CATEGORY_W : List (String × ℚ) :=
  [("llm", 25), ("framework", 22), ("paper", 20),
   ("rag", 18), ("agent", 18), ("workflow", 15), ("other", 8)]

/-- `SOURCE_W.get(source_type, 10)`. -/
def sourceWeight (st : String) : ℚ :=
  (SOURCE_W.lookup st).getD 10

/-- `CATEGORY_W.get(category, 8)`. -/
def categoryWeight (cat : String) : ℚ :=
  (CATEGORY_W.lookup cat).getD 8

/-- Python `min(a, b)` on two rationals, written with an executable
conditional so that concrete scores evaluate by kernel reduction; equal to
`min` by `min_def`. -/
def pyMin (a b : ℚ) : ℚ :=
  if a ≤ b then a else b

/-- `Scorer._hot_score`: community heat, source-specific. -/
def hotScore (item : Item) : ℚ :=
  if item.source_type = "hn" then pyMin ((item.raw_score : ℚ) / 500 * 25) 25
  else if item.source_type = "pwc" then
    pyMin (extraGet item.extra "stars" 0 / 1000 * 25) 25
  else if item.source_type = "github" then
    let stars := extraGet item.extra "stars" 0
    if stars > 0 then pyMin (stars / 100000 * 25) 25 else 10
  else 10

/-- `Scorer._time_score`: recency step function on the age in hours. -/
def timeScore (item : Item) (now : ℚ) : ℚ :=
  let hours := (now - item.published_at) / 3600
  if hours ≤ 24 then 20
  else if hours ≤ 48 then 15
  else if hours ≤ 168 then 10
  else if hours ≤ 720 then 5
  else 2

/-- Round-half-to-even to an integer, the tie-breaking rule of Python
`round`. -/
def roundHalfEven (q : ℚ) : ℤ :=
  if Int.fract q = 1 / 2 then (if ⌊q⌋ % 2 = 0 then ⌊q⌋ else ⌊q⌋ + 1)
  else round q

/-- Python `round(x, 1)` over the exact rational model of the float
arithmetic. -/
def pyRound1 (q : ℚ) : ℚ :=
  (roundHalfEven (q * 10) : ℚ) / 10

/-- The per-item body of `Scorer.score`:
`min(round(source + category + breaking + hot + time, 1), 100.0)`. -/
def scoreItem (item : Item) (now : ℚ) : ℚ :=
  pyMin (pyRound1 (sourceWeight item.source_type + categoryWeight item.category
        + (if item.is_breaking_change then 15 else 0)
        + hotScore item + timeScore item now)) 100

/-- `Scorer.score` over a batch: write the score into each item. -/
def scoreAll (items : List Item) (now : ℚ) : List Item :=
  items.map (fun i => { i with score := scoreItem i now })

/-! ## JsonStore (`src/storage/json_store.py`)

The store manipulates the dict images of items (`_to_dict`); the dict form
is identified with `Item` here, with `published_at` carried as a timestamp
(ISO-8601 strings always parse in the model, so the `except: keep` branch
of `within_window` is not reachable). -/

/-- `within_window` of `JsonStore._merge_with_existing`: keep an existing
item iff its `published_at` is not before the cutoff. -/
def withinWindow (cutoff : ℚ) (item : Item) : Bool :=
  decide (cutoff ≤ item.published_at)

/-- The `for d in new_dicts` loop of `_merge_with_existing`: append each
new item whose URL is not yet present, extending the URL set as it goes. -/
def appendNewLoop (acc : List Item) (urls : List String) : List Item → List Item
  | [] => acc
  | d :: ds =>
      if d.url ∈ urls then appendNewLoop acc urls ds
      else appendNewLoop (acc ++ [d]) (d.url :: urls) ds

/-- Stable insertion for the descending-by-score sort: an element goes in
front of the first strictly smaller score, after equal scores that were
earlier in the input (CPython `list.sort(key=score, reverse=True)` is
stable). -/
def insertByScoreDesc (r : Item) : List Item → List Item
  | [] => [r]
  | x :: xs => if x.score ≤ r.score then r :: x :: xs else x :: insertByScoreDesc r xs

/-- `existing.sort(key=lambda x: x.get("score", 0), reverse=True)` as a
stable descending insertion sort (stable sorts by the same key agree). -/
def sortByScoreDesc (l : List Item) : List Item :=
  l.foldr insertByScoreDesc []

/-- `JsonStore._merge_with_existing`: drop existing items older than
`keep_days` days before `now`, append new items not already present by URL,
then sort by score descending. -/
def mergeWithExisting (existing new_dicts : List Item) (now : ℚ) (keep_days : ℚ) :
    List Item :=
  let cutoff := now - keep_days * 86400
  let kept := existing.filter (withinWindow cutoff)
  sortByScoreDesc (appendNewLoop kept (kept.map (fun i => i.url)) new_dicts)

/-- `JsonStore._append_to_monthly_archive` on the shard's item list: extend
with the new items whose URL is not yet in the shard; the written payload's
`total` is the length of the result. -/
def appendToMonthlyArchive (all_items new_items : List Item) : List Item :=
  let existing_urls := all_items.map (fun i => i.url)
  all_items ++ new_items.filter (fun i => decide (i.url ∉ existing_urls))

/-! ## VectorIndex (`src/rag/vector_store.py`)

`VectorStore.add_items` computes `hashlib.md5(item.url.encode()).hexdigest()`
— a hash of the **raw** URL.  The digest is modelled by an injective
function of the raw URL string (the identity on strings: only injectivity
on the URLs at hand is relevant).  `get_embedding` is modelled as always
succeeding (per-item embedding failures are outside these claims). -/

/-- Model of `hashlib.md5(url.encode()).hexdigest()`: an injective digest
of the raw, un-normalised URL. -/
def md5Hex (s : String) : String := s

/-- The loop of `VectorStore.add_items`: skip an item whose document id is
already indexed, else insert it and count it. -/
def addItemsLoop (ids : List String) (added : ℕ) : List Item → List String × ℕ
  | [] => (ids, added)
  | item :: rest =>
      let doc_id := md5Hex item.url
      if doc_id ∈ ids then addItemsLoop ids added rest
      else addItemsLoop (doc_id :: ids) (added + 1) rest

/-- `VectorStore.add_items`: returns the final id set and the count of
items actually inserted. -/
def addItems (existing_ids : List String) (items : List Item) : List String × ℕ :=
  addItemsLoop existing_ids 0 items

/-! ## RetrievalAnswerer (`src/rag/rag_client.py`)

The HTTP exchange of `RAGClient._generate` is abstracted by a
`CompletionOutcome`: a successful response body, a
`requests.exceptions.ConnectionError`, or any other exception with its
message.  `ask` itself is a total Lean function, so it never raises. -/

/-- The possible outcomes of the single Ollama `/api/chat` call. -/
inductive CompletionOutcome where
  | success (content : Option String)
  | connectionError
  | failure (msg : String)
deriving DecidableEq, Repr

/-- One retrieval hit, the metadata+content mapping returned by
`VectorStore.search`. -/
structure Hit where
  title : String := ""
  url : String := ""
  source : String := ""
  category : String := ""
  published_at : String := ""
  score : ℚ := 0
  content : String := ""
deriving DecidableEq, Repr

/-- Python `s[:n]`. -/
def pyTake (n : ℕ) (s : String) : String :=
  (s.toList.take n).asString

/-- One numbered excerpt of the grounding context built by `RAGClient.ask`. -/
def contextLine (i : ℕ) (r : Hit) : String :=
  "[" ++ toString i ++ "] [" ++ r.category ++ "] " ++ r.title
    ++ "（来源：" ++ r.source ++ "，时间：" ++ pyTake 10 r.published_at ++ "）\n"
    ++ "    " ++ pyTake 500 r.content

/-- The grounding context: numbered excerpts joined by blank lines
(`enumerate(results, 1)`). -/
def buildContext (results : List Hit) : String :=
  String.intercalate "\n\n" (results.mapIdx (fun i r => contextLine (i + 1) r))

/-- The fixed system prompt of `RAGClient.ask`. -/
def systemPrompt : String :=
  "你是一个 AI 技术趋势分析助手。请严格基于以下从知识库检索到的数据回答用户问题，不要编造知识库中没有的内容。回答用中文，结构清晰，并在引用具体信息时标注来源编号（如[1]）。如果检索内容与问题无关或信息不足，请如实说明。"

/-- The user prompt of `RAGClient.ask`: retrieval context plus question. -/
def userPrompt (results : List Hit) (question : String) : String :=
  "【知识库检索结果】\n" ++ buildContext results ++ "\n\n【问题】" ++ question

/-- `RAGClient._generate`: the response body's `message.content` (default
text when absent) stripped of surrounding whitespace on success; fixed
degraded message on connection failure; raw error text otherwise.  The
prompts are the request payload and do not influence which branch is
taken. -/
def generate (systemP userP : String) (o : CompletionOutcome) : String :=
  match o with
  | .success c => (c.getD "（模型未返回内容）").trim
  | .connectionError => "⚠ 无法连接 Ollama 服务，请确认 Ollama 已启动。"
  | .failure e => "⚠ 生成回答时出错：" ++ e

/-- `RAGClient.ask`: short-circuit to the fixed no-data message when
retrieval is empty, else build the prompts and make the single completion
call. -/
def ask (results : List Hit) (question : String) (o : CompletionOutcome) : String :=
  if results.isEmpty then "未检索到相关内容，请先运行 Mode 1 采集数据并建立向量库。"
  else generate systemPrompt (userPrompt results question) o

/-! ## Spec-side definitions and concrete instances used by the theorems -/

/-- Spec-side reading of the Classifier's category selection: the first
category of the fixed priority order `framework, llm, rag, agent, workflow`
whose keyword set has a member occurring in the haystack, else `"other"`.
Stated independently of `detectCategory` (which is translated from the
source) so the two can be compared. -/
def specFirstPriorityCategory (kw : List (String × List String)) (text : String) : String :=
  if ∃ w ∈ kwGet kw "framework", occursIn w text = true then "framework"
  else if ∃ w ∈ kwGet kw "llm", occursIn w text = true then "llm"
  else if ∃ w ∈ kwGet kw "rag", occursIn w text = true then "rag"
  else if ∃ w ∈ kwGet kw "agent", occursIn w text = true then "agent"
  else if ∃ w ∈ kwGet kw "workflow", occursIn w text = true then "workflow"
  else "other"

/-- A record at `https://x.com/a` (the concrete dedup scenario). -/
def recXA : Item :=
  { title := "a", url := "https://x.com/a", source := "s", source_type := "rss",
    category := "llm", published_at := 0 }

/-- The same record with a trailing slash on its URL. -/
def recXA2 : Item :=
  { title := "a2", url := "https://x.com/a/", source := "s", source_type := "rss",
    category := "llm", published_at := 0 }

/-- The concrete scoring scenario: category `llm`, source `rss`, breaking,
published two hours before the (frozen) scoring time. -/
def c5item : Item :=
  { title := "t", url := "u", source := "s", source_type := "rss",
    category := "llm", published_at := 0, is_breaking_change := true }

/-- A forum (HN) record with a large negative community score: the scorer's
heat term is unclamped below, so the total goes negative. -/
def negHeatItem : Item :=
  { title := "t", url := "u", source := "s", source_type := "hn",
    category := "other", published_at := 0, raw_score := -10000 }

/-- A record published at epoch 0, fed as *new* input to `save` at a `now`
sixty days later: far older than the 30-day cutoff. -/
def staleItem : Item :=
  { title := "old", url := "https://old.example/a", source := "s",
    source_type := "rss", category := "other", published_at := 0 }

/-- A forum (HN) record with `raw_score = 40`. -/
def hnRejectItem : Item :=
  { title := "t", url := "https://news.ycombinator.com/item", source := "HN",
    source_type := "hn", category := "other", published_at := 0, raw_score := 40 }

/-- A filter configuration with `hacker_news_min = 50`. -/
def cfg50 : List (String × ℚ) := [("hacker_news_min", 50)]

/-- A record arriving with `is_breaking_change = true` whose text matches no
breaking-change phrase. -/
def resetItem : Item :=
  { title := "hello world", url := "u", source := "s", source_type := "rss",
    category := "other", published_at := 0, is_breaking_change := true }

/-- A paper-category record, for the pinned-category scenario. -/
def paperItem : Item :=
  { title := "attention is all you need", url := "https://arxiv.org/abs/1",
    source := "arxiv", source_type := "pwc", category := "paper", published_at := 0 }

/-- A small keyword configuration. -/
def kwcfg0 : List (String × List String) := [("framework", ["LangChain"])]

/-- A single retrieval hit. -/
def hit0 : Hit := { title := "t", url := "u", source := "s", category := "llm" }

/-! ## Lemmas -/

lemma dedupeLoop_not_mem_seen :
    ∀ (items : List Item) (seen : List String) (a : Item),
      a ∈ dedupeLoop seen items → normUrl a.url ∉ seen := by
  intro items
  induction items with
  | nil => intro seen a h; simp [dedupeLoop] at h
  | cons it rest ih =>
    intro seen a h
    by_cases hmem : normUrl it.url ∈ seen
    · rw [dedupeLoop, if_pos hmem] at h
      exact ih seen a h
    · rw [dedupeLoop, if_neg hmem] at h
      rcases List.mem_cons.mp h with rfl | h2
      · exact hmem
      · have := ih _ _ h2
        exact fun hs => this (List.mem_cons_of_mem _ hs)

lemma dedupeLoop_pairwise :
    ∀ (items : List Item) (seen : List String),
      (dedupeLoop seen items).Pairwise (fun a b => normUrl a.url ≠ normUrl b.url) := by
  intro items
  induction items with
  | nil => intro seen; simp [dedupeLoop]
  | cons it rest ih =>
    intro seen
    by_cases hmem : normUrl it.url ∈ seen
    · rw [dedupeLoop, if_pos hmem]; exact ih seen
    · rw [dedupeLoop, if_neg hmem]
      refine List.Pairwise.cons ?_ (ih _)
      intro b hb hEq
      exact (dedupeLoop_not_mem_seen rest _ b hb) (hEq ▸ List.mem_cons_self _ _)

lemma foldl_archive_ex :
    ∀ (batches : List (List Item)) (old : List Item),
      ∃ t, List.foldl appendToMonthlyArchive old batches = old ++ t := by
  intro batches
  induction batches with
  | nil => intro old; exact ⟨[], by simp⟩
  | cons b bs ih =>
    intro old
    obtain ⟨t, ht⟩ := ih (appendToMonthlyArchive old b)
    refine ⟨b.filter (fun i => decide (i.url ∉ old.map (fun j => j.url))) ++ t, ?_⟩
    rw [List.foldl_cons, ht,
      show appendToMonthlyArchive old b
          = old ++ b.filter (fun i => decide (i.url ∉ old.map (fun j => j.url))) from rfl,
      List.append_assoc]

/-! ## Claim theorems -/

/-- C3: any two records whose URLs agree after normalization (trailing
slashes stripped, `http://` replaced by `https://`, lower-cased) are never
both kept by `deduplicate` — the survivors' normalized URLs are pairwise
distinct — and the concrete pair `https://x.com/a`, `https://x.com/a/`
deduplicates to the first record alone. -/
theorem dedup_at_most_one_per_normalized_url :
    (∀ (existing_urls : List String) (items : List Item),
      (deduplicate existing_urls items).Pairwise
        (fun a b => normUrl a.url ≠ normUrl b.url))
    ∧ deduplicate [] [recXA, recXA2] = [recXA] := by
  constructor
  · intro existing_urls items
    exact dedupeLoop_pairwise items _
  · decide

/-- C4 (evidence of the code bug): `VectorStore.add_items` derives the
document id from the **raw** URL (`hashlib.md5(item.url.encode())`), not
from the normalized URL its own docstring promises, so the two records at
`https://x.com/a` and `https://x.com/a/` — equal after normalization —
are both inserted into an empty index (`added = 2`). -/
theorem vector_index_inserts_both_normalized_duplicates :
    normUrl recXA.url = normUrl recXA2.url
    ∧ (addItems [] [recXA, recXA2]).2 = 2 := by
  exact ⟨by decide, by decide⟩

/-- C6: the monthly archive shard is append-only — across any succession of
`save` calls within the month, the previous item list is always a prefix of
the new one (nothing is removed or reordered) and `total`, the item count,
never decreases. -/
theorem archive_shard_append_only :
    ∀ (old : List Item) (batches : List (List Item)),
      ∃ t, List.foldl appendToMonthlyArchive old batches = old ++ t
        ∧ old.length ≤ (List.foldl appendToMonthlyArchive old batches).length := by
  intro old batches
  obtain ⟨t, ht⟩ := foldl_archive_ex batches old
  exact ⟨t, ht, by rw [ht]; simp⟩

lemma mem_insertByScoreDesc {a r : Item} :
    ∀ {l : List Item}, a ∈ insertByScoreDesc r l ↔ a = r ∨ a ∈ l := by
  intro l
  induction l with
  | nil => simp [insertByScoreDesc]
  | cons x xs ih =>
    rw [insertByScoreDesc]
    split_ifs with h
    · simp [List.mem_cons]
    · rw [List.mem_cons, ih, List.mem_cons]
      tauto

lemma mem_sortByScoreDesc {a : Item} :
    ∀ {l : List Item}, a ∈ sortByScoreDesc l ↔ a ∈ l := by
  intro l
  induction l with
  | nil => simp [sortByScoreDesc]
  | cons x xs ih =>
    show a ∈ insertByScoreDesc x (sortByScoreDesc xs) ↔ _
    rw [mem_insertByScoreDesc, List.mem_cons]
    exact or_congr Iff.rfl ih

lemma appendNewLoop_subset :
    ∀ (ds acc : List Item) (urls : List String) (a : Item),
      a ∈ acc → a ∈ appendNewLoop acc urls ds := by
  intro ds
  induction ds with
  | nil => intro acc urls a h; simpa [appendNewLoop] using h
  | cons d ds ih =>
    intro acc urls a h
    rw [appendNewLoop]
    split_ifs with hd
    · exact ih _ _ _ h
    · exact ih _ _ _ (List.mem_append_left _ h)

lemma appendNewLoop_mem :
    ∀ (ds acc : List Item) (urls : List String) (a : Item),
      a ∈ appendNewLoop acc urls ds → a ∈ acc ∨ a ∈ ds := by
  intro ds
  induction ds with
  | nil => intro acc urls a h; exact Or.inl (by simpa [appendNewLoop] using h)
  | cons d ds ih =>
    intro acc urls a h
    rw [appendNewLoop] at h
    split_ifs at h with hd
    · rcases ih _ _ _ h with h2 | h2
      · exact Or.inl h2
      · exact Or.inr (List.mem_cons_of_mem _ h2)
    · rcases ih _ _ _ h with h2 | h2
      · rcases List.mem_append.mp h2 with h3 | h3
        · exact Or.inl h3
        · exact Or.inr (List.mem_cons.mpr (Or.inl (List.mem_singleton.mp h3)))
      · exact Or.inr (List.mem_cons_of_mem _ h2)

lemma appendNewLoop_covers :
    ∀ (ds acc : List Item) (urls : List String),
      (∀ u ∈ urls, ∃ r ∈ acc, r.url = u) →
      ∀ d ∈ ds, ∃ r ∈ appendNewLoop acc urls ds, r.url = d.url := by
  intro ds
  induction ds with
  | nil => intro acc urls _ d hd; simp at hd
  | cons d0 ds ih =>
    intro acc urls hinv d hd
    rw [appendNewLoop]
    rcases List.mem_cons.mp hd with rfl | hd'
    · split_ifs with hu
      · obtain ⟨r, hr, hru⟩ := hinv _ hu
        exact ⟨r, appendNewLoop_subset ds _ _ r hr, hru⟩
      · exact ⟨d, appendNewLoop_subset ds _ _ d (List.mem_append_right _ (List.mem_singleton.mpr rfl)), rfl⟩
    · split_ifs with hu
      · exact ih acc urls hinv d hd'
      · refine ih (acc ++ [d0]) (d0.url :: urls) ?_ d hd'
        intro u hu2
        rcases List.mem_cons.mp hu2 with rfl | hu3
        · exact ⟨d0, List.mem_append_right _ (List.mem_singleton.mpr rfl), rfl⟩
        · obtain ⟨r, hr, hru⟩ := hinv u hu3
          exact ⟨r, List.mem_append_left _ hr, hru⟩

/-- C1 (counterexample): a *new* record far older than the 30-day cutoff
survives `save`'s merge — with an empty prior snapshot and `now` sixty days
after epoch, the merged snapshot is exactly the stale input record, whose
`published_at` is older than `now - 30 days`.  The merge only prunes
records loaded from the existing snapshot, never the incoming batch. -/
theorem merge_keeps_new_record_older_than_cutoff :
    mergeWithExisting [] [staleItem] 5184000 30 = [staleItem]
    ∧ staleItem.published_at < 5184000 - 30 * 86400 := by
  constructor
  · decide
  · norm_num [staleItem]

/-- C1 (amended): after `save`'s merge, every surviving record either came
from the incoming batch, or came from the previous snapshot and then has
`published_at` no older than `now - keep_days`; and every record of the
incoming batch — in particular every one newer than the cutoff — is
represented by URL in the result. -/
theorem merge_retention_amended :
    ∀ (existing new_dicts : List Item) (now keep_days : ℚ),
      (∀ r ∈ mergeWithExisting existing new_dicts now keep_days,
        r ∈ new_dicts ∨ (r ∈ existing ∧ now - keep_days * 86400 ≤ r.published_at))
      ∧ (∀ r ∈ new_dicts,
        ∃ s ∈ mergeWithExisting existing new_dicts now keep_days, s.url = r.url) := by
  intro existing new_dicts now keep_days
  constructor
  · intro r hr
    have hr2 : r ∈ appendNewLoop
        (existing.filter (withinWindow (now - keep_days * 86400)))
        ((existing.filter (withinWindow (now - keep_days * 86400))).map (fun i => i.url))
        new_dicts := mem_sortByScoreDesc.mp hr
    rcases appendNewLoop_mem _ _ _ _ hr2 with h2 | h2
    · obtain ⟨hmem, hwin⟩ := List.mem_filter.mp h2
      exact Or.inr ⟨hmem, of_decide_eq_true hwin⟩
    · exact Or.inl h2
  · intro r hr
    have hinv : ∀ u ∈ (existing.filter (withinWindow (now - keep_days * 86400))).map
        (fun i => i.url),
        ∃ x ∈ existing.filter (withinWindow (now - keep_days * 86400)), x.url = u := by
      intro u hu
      obtain ⟨x, hx, hxu⟩ := List.mem_map.mp hu
      exact ⟨x, hx, hxu⟩
    obtain ⟨s, hs, hsu⟩ := appendNewLoop_covers new_dicts _ _ hinv r hr
    exact ⟨s, mem_sortByScoreDesc.mpr hs, hsu⟩

/-- Witness for the amended retention theorem at a concrete input: the
stale record of the counterexample is represented by URL in the merge
result. -/
theorem merge_retention_amended_witness :
    ∃ s ∈ mergeWithExisting [] [staleItem] 5184000 30, s.url = staleItem.url :=
  (merge_retention_amended [] [staleItem] 5184000 30).2 staleItem
    (List.mem_singleton.mpr rfl)

lemma sourceWeight_ge (st : String) : 10 ≤ sourceWeight st := by
  simp only [sourceWeight, SOURCE_W, List.lookup]
  repeat' split
  all_goals norm_num

lemma categoryWeight_ge (cat : String) : 8 ≤ categoryWeight cat := by
  simp only [categoryWeight, CATEGORY_W, List.lookup]
  repeat' split
  all_goals norm_num

lemma pyMin_le_right (a b : ℚ) : pyMin a b ≤ b := by
  rw [pyMin]
  split_ifs with h
  · exact h
  · exact le_refl b

lemma pyMin_nonneg {a b : ℚ} (ha : 0 ≤ a) (hb : 0 ≤ b) : 0 ≤ pyMin a b := by
  rw [pyMin]
  split_ifs <;> assumption

lemma hotScore_nonneg (item : Item) (h1 : 0 ≤ (item.raw_score : ℚ))
    (h2 : 0 ≤ extraGet item.extra "stars" 0) : 0 ≤ hotScore item := by
  simp only [hotScore]
  split_ifs with ha hb hc hd
  · exact pyMin_nonneg (mul_nonneg (div_nonneg h1 (by norm_num)) (by norm_num)) (by norm_num)
  · exact pyMin_nonneg (mul_nonneg (div_nonneg h2 (by norm_num)) (by norm_num)) (by norm_num)
  · exact pyMin_nonneg (mul_nonneg (div_nonneg (le_of_lt hd) (by norm_num)) (by norm_num)) (by norm_num)
  · norm_num
  · norm_num

lemma timeScore_ge (item : Item) (now : ℚ) : 2 ≤ timeScore item now := by
  simp only [timeScore]
  split_ifs <;> norm_num

lemma roundHalfEven_ge_floor (q : ℚ) : ⌊q⌋ ≤ roundHalfEven q := by
  rw [roundHalfEven]
  split_ifs with h1 h2
  · exact le_refl _
  · omega
  · rw [round_eq]
    exact Int.floor_mono (by linarith)

lemma pyRound1_nonneg {q : ℚ} (h : 0 ≤ q) : 0 ≤ pyRound1 q := by
  rw [pyRound1]
  have h1 : (0 : ℤ) ≤ ⌊q * 10⌋ := Int.floor_nonneg.mpr (by positivity)
  have h2 : (0 : ℤ) ≤ roundHalfEven (q * 10) := le_trans h1 (roundHalfEven_ge_floor _)
  have h3 : (0 : ℚ) ≤ (roundHalfEven (q * 10) : ℚ) := by exact_mod_cast h2
  exact div_nonneg h3 (by norm_num)

/-- C2 (counterexample): the score is *not* bounded below by 0 for every
record — a forum (hn) record with `raw_score = -10000` gets heat
`min(-10000/500*25, 25) = -500` and a total score of `-454`. -/
theorem score_below_zero_counterexample :
    scoreItem negHeatItem 0 < 0 ∧ scoreItem negHeatItem 0 = -454 := by
  have h1 : sourceWeight negHeatItem.source_type = 18 := by decide
  have h2 : categoryWeight negHeatItem.category = 8 := by decide
  have h3 : hotScore negHeatItem = -500 := by
    norm_num [hotScore, negHeatItem, pyMin]
  have h4 : timeScore negHeatItem 0 = 20 := by norm_num [timeScore, negHeatItem]
  have h5 : negHeatItem.is_breaking_change = false := by decide
  have hval : scoreItem negHeatItem 0 = -454 := by
    simp only [scoreItem, h1, h2, h3, h4, h5, Bool.false_eq_true, if_false]
    norm_num [pyMin, pyRound1, roundHalfEven, Int.fract, round_eq]
  exact ⟨by rw [hval]; norm_num, hval⟩

/-- C2 (amended): for every record whose popularity signals are
non-negative (`raw_score ≥ 0` and `extra["stars"] ≥ 0`, as the fetchers
produce), the score satisfies `0 ≤ score ≤ 100`; and re-scoring a record
whose fields are unchanged (the previous score itself is not an input of
the formula) at the same frozen `now` reproduces the identical score. -/
theorem score_bounds_amended :
    ∀ (item : Item) (now : ℚ),
      0 ≤ (item.raw_score : ℚ) → 0 ≤ extraGet item.extra "stars" 0 →
      (0 ≤ scoreItem item now ∧ scoreItem item now ≤ 100
        ∧ scoreItem { item with score := scoreItem item now } now = scoreItem item now) := by
  intro item now h1 h2
  refine ⟨?_, ?_, rfl⟩
  · rw [scoreItem]
    refine pyMin_nonneg (pyRound1_nonneg ?_) (by norm_num)
    have hs := sourceWeight_ge item.source_type
    have hc := categoryWeight_ge item.category
    have hh := hotScore_nonneg item h1 h2
    have ht := timeScore_ge item now
    have hb : (0 : ℚ) ≤ if item.is_breaking_change then 15 else 0 := by
      split_ifs <;> norm_num
    linarith
  · rw [scoreItem]
    exact pyMin_le_right _ _

/-- Witness for the amended score-bounds theorem at a concrete record with
non-negative signals. -/
theorem score_bounds_amended_witness :
    0 ≤ scoreItem c5item 7200 ∧ scoreItem c5item 7200 ≤ 100
      ∧ scoreItem { c5item with score := scoreItem c5item 7200 } 7200
          = scoreItem c5item 7200 :=
  score_bounds_amended c5item 7200 (by norm_num [c5item]) (by norm_num [c5item, extraGet])

/-- C5: the concrete scenario — category `llm`, source `rss`, breaking,
published two hours before the frozen `now`, no popularity signal — scores
exactly 100.0, as 30 (source) + 25 (category) + 15 (breaking) + 10 (heat)
+ 20 (recency), clamped at 100. -/
theorem score_concrete_scenario :
    scoreItem c5item 7200 = 100
    ∧ sourceWeight c5item.source_type = 30
    ∧ categoryWeight c5item.category = 25
    ∧ (if c5item.is_breaking_change then (15 : ℚ) else 0) = 15
    ∧ hotScore c5item = 10
    ∧ timeScore c5item 7200 = 20 := by
  have h1 : sourceWeight c5item.source_type = 30 := by decide
  have h2 : categoryWeight c5item.category = 25 := by decide
  have h3 : hotScore c5item = 10 := by decide
  have h4 : timeScore c5item 7200 = 20 := by norm_num [timeScore, c5item]
  have h5 : c5item.is_breaking_change = true := by decide
  refine ⟨?_, h1, h2, by rw [h5]; norm_num, h3, h4⟩
  simp only [scoreItem, h1, h2, h3, h4, h5, if_true]
  norm_num [pyMin, pyRound1, roundHalfEven, Int.fract, round_eq]

/-- Bridging lemma: the source's `_detect_category` (a `find?` over the
priority list) equals the spec-side first-matching-category chain. -/
lemma detectCategory_eq_spec (kw : List (String × List String)) (text : String) :
    detectCategory kw text = specFirstPriorityCategory kw text := by
  rw [detectCategory, specFirstPriorityCategory, CATEGORY_PRIORITY]
  by_cases h1 : ∃ w ∈ kwGet kw "framework", occursIn w text = true
  · have e1 : List.find? (fun cat => (kwGet kw cat).any fun w => occursIn w text)
        ["framework", "llm", "rag", "agent", "workflow"] = some "framework" :=
      List.find?_cons_of_pos _ (List.any_eq_true.mpr h1)
    rw [e1, if_pos h1]
  · have e1 : List.find? (fun cat => (kwGet kw cat).any fun w => occursIn w text)
        ["framework", "llm", "rag", "agent", "workflow"]
        = List.find? (fun cat => (kwGet kw cat).any fun w => occursIn w text)
            ["llm", "rag", "agent", "workflow"] :=
      List.find?_cons_of_neg _ (fun hx => h1 (List.any_eq_true.mp hx))
    rw [e1, if_neg h1]
    by_cases h2 : ∃ w ∈ kwGet kw "llm", occursIn w text = true
    · have e2 : List.find? (fun cat => (kwGet kw cat).any fun w => occursIn w text)
          ["llm", "rag", "agent", "workflow"] = some "llm" :=
        List.find?_cons_of_pos _ (List.any_eq_true.mpr h2)
      rw [e2, if_pos h2]
    · have e2 : List.find? (fun cat => (kwGet kw cat).any fun w => occursIn w text)
          ["llm", "rag", "agent", "workflow"]
          = List.find? (fun cat => (kwGet kw cat).any fun w => occursIn w text)
              ["rag", "agent", "workflow"] :=
        List.find?_cons_of_neg _ (fun hx => h2 (List.any_eq_true.mp hx))
      rw [e2, if_neg h2]
      by_cases h3 : ∃ w ∈ kwGet kw "rag", occursIn w text = true
      · have e3 : List.find? (fun cat => (kwGet kw cat).any fun w => occursIn w text)
            ["rag", "agent", "workflow"] = some "rag" :=
          List.find?_cons_of_pos _ (List.any_eq_true.mpr h3)
        rw [e3, if_pos h3]
      · have e3 : List.find? (fun cat => (kwGet kw cat).any fun w => occursIn w text)
            ["rag", "agent", "workflow"]
            = List.find? (fun cat => (kwGet kw cat).any fun w => occursIn w text)
                ["agent", "workflow"] :=
          List.find?_cons_of_neg _ (fun hx => h3 (List.any_eq_true.mp hx))
        rw [e3, if_neg h3]
        by_cases h4 : ∃ w ∈ kwGet kw "agent", occursIn w text = true
        · have e4 : List.find? (fun cat => (kwGet kw cat).any fun w => occursIn w text)
              ["agent", "workflow"] = some "agent" :=
            List.find?_cons_of_pos _ (List.any_eq_true.mpr h4)
          rw [e4, if_pos h4]
        · have e4 : List.find? (fun cat => (kwGet kw cat).any fun w => occursIn w text)
              ["agent", "workflow"]
              = List.find? (fun cat => (kwGet kw cat).any fun w => occursIn w text)
                  ["workflow"] :=
            List.find?_cons_of_neg _ (fun hx => h4 (List.any_eq_true.mp hx))
          rw [e4, if_neg h4]
          by_cases h5 : ∃ w ∈ kwGet kw "workflow", occursIn w text = true
          · have e5 : List.find? (fun cat => (kwGet kw cat).any fun w => occursIn w text)
                ["workflow"] = some "workflow" :=
              List.find?_cons_of_pos _ (List.any_eq_true.mpr h5)
            rw [e5, if_pos h5]
          · have e5 : List.find? (fun cat => (kwGet kw cat).any fun w => occursIn w text)
                ["workflow"]
                = List.find? (fun cat => (kwGet kw cat).any fun w => occursIn w text) [] :=
              List.find?_cons_of_neg _ (fun hx => h5 (List.any_eq_true.mp hx))
            rw [e5, if_neg h5]
            rfl

/-- C7: a record is admitted by `ThresholdFilter` iff its title and URL are
non-blank after stripping whitespace, it is not a forum (hn) record with
`raw_score` below the configured `hacker_news_min` (the spec's
`forum_min_score`, default 50), and its `published_at` is at most one hour
in the future of the evaluation time; admitted records keep their relative
input order (the output is a sublist); and the concrete forum record with
`raw_score = 40` under a configured minimum of 50 is rejected. -/
theorem filter_admission_characterization :
    (∀ (config : List (String × ℚ)) (now : ℚ) (item : Item),
      passesItem config now item = true ↔
        (pyStrip item.title ≠ "" ∧ pyStrip item.url ≠ ""
          ∧ ¬(item.source_type = "hn"
              ∧ (item.raw_score : ℚ) < extraGet config "hacker_news_min" 50)
          ∧ item.published_at ≤ now + 3600))
    ∧ (∀ (config : List (String × ℚ)) (now : ℚ) (items : List Item),
        (filterItems config now items).Sublist items)
    ∧ (∀ now : ℚ, passesItem cfg50 now hnRejectItem = false) := by
  refine ⟨?_, ?_, ?_⟩
  · intro config now item
    rw [passesItem]
    split_ifs with hA hB hC
    · constructor
      · intro hcontra; cases hcontra
      · rintro ⟨ht, hu, _, _⟩
        rcases hA with h | h
        · exact absurd h ht
        · exact absurd h hu
    · constructor
      · intro hcontra; cases hcontra
      · rintro ⟨_, _, hno, _⟩
        exact absurd hB hno
    · constructor
      · intro hcontra; cases hcontra
      · rintro ⟨_, _, _, hp⟩
        linarith
    · rw [not_or] at hA
      constructor
      · intro _
        exact ⟨hA.1, hA.2, hB, not_lt.mp hC⟩
      · intro _
        rfl
  · intro config now items
    exact List.filter_sublist _
  · intro now
    have hstr : ¬(pyStrip hnRejectItem.title = "" ∨ pyStrip hnRejectItem.url = "") := by
      decide
    have hhn : hnRejectItem.source_type = "hn"
        ∧ (hnRejectItem.raw_score : ℚ) < extraGet cfg50 "hacker_news_min" 50 := by
      refine ⟨rfl, ?_⟩
      norm_num [hnRejectItem, cfg50, extraGet, List.lookup]
    rw [passesItem, if_neg hstr, if_pos hhn]

/-- C8: the Classifier never reclassifies a record pinned to `"paper"`;
every other record gets the first category of the fixed priority order
`framework, llm, rag, agent, workflow` with a keyword occurring in the
lower-cased `title + " " + content` haystack, and `"other"` when none
matches. -/
theorem classifier_pinned_paper_and_priority_order :
    ∀ (kwcfg : List (String × List String)) (item : Item),
      (item.category = "paper" →
        (classifyItem (mkClassifierKw kwcfg) item).category = "paper")
      ∧ (item.category ≠ "paper" →
        (classifyItem (mkClassifierKw kwcfg) item).category
          = specFirstPriorityCategory (mkClassifierKw kwcfg)
              (pyLower (item.title ++ " " ++ item.content))) := by
  intro kwcfg item
  constructor
  · intro h
    show (if item.category = "paper" then item.category
      else detectCategory (mkClassifierKw kwcfg)
        (pyLower (item.title ++ " " ++ item.content))) = "paper"
    rw [if_pos h]
    exact h
  · intro h
    show (if item.category = "paper" then item.category
      else detectCategory (mkClassifierKw kwcfg)
        (pyLower (item.title ++ " " ++ item.content))) = _
    rw [if_neg h, detectCategory_eq_spec]

/-- Witness for the classifier theorem: a pinned paper record keeps its
category, and a non-paper record gets the spec-side first-priority
category. -/
theorem classifier_pinned_paper_witness :
    (classifyItem (mkClassifierKw kwcfg0) paperItem).category = "paper"
    ∧ (classifyItem (mkClassifierKw kwcfg0) resetItem).category
        = specFirstPriorityCategory (mkClassifierKw kwcfg0)
            (pyLower (resetItem.title ++ " " ++ resetItem.content)) :=
  ⟨(classifier_pinned_paper_and_priority_order kwcfg0 paperItem).1 rfl,
   (classifier_pinned_paper_and_priority_order kwcfg0 resetItem).2 (by decide)⟩

/-- C9: `ask` is total (a Lean function: it never raises) and: with no
retrieval results it returns the fixed no-data message whatever the
completion service would do (no call is made — the result does not depend
on the outcome); with results, a connection error yields the fixed
degraded message, and any other failure yields a message carrying the raw
error text. -/
theorem ask_error_handling :
    ∀ (results : List Hit) (question : String) (o : CompletionOutcome) (e : String),
      (results = [] → ask results question o
        = "未检索到相关内容，请先运行 Mode 1 采集数据并建立向量库。")
      ∧ (results ≠ [] → ask results question CompletionOutcome.connectionError
        = "⚠ 无法连接 Ollama 服务，请确认 Ollama 已启动。")
      ∧ (results ≠ [] → ask results question (CompletionOutcome.failure e)
        = "⚠ 生成回答时出错：" ++ e) := by
  intro results question o e
  refine ⟨?_, ?_, ?_⟩
  · intro h
    subst h
    rfl
  · intro h
    rcases results with _ | ⟨r, rs⟩
    · exact absurd rfl h
    · rfl
  · intro h
    rcases results with _ | ⟨r, rs⟩
    · exact absurd rfl h
    · rfl

/-- Witness for the ask error-handling theorem at concrete inputs. -/
theorem ask_error_handling_witness :
    ask [] "q" CompletionOutcome.connectionError
      = "未检索到相关内容，请先运行 Mode 1 采集数据并建立向量库。"
    ∧ ask [hit0] "q" CompletionOutcome.connectionError
      = "⚠ 无法连接 Ollama 服务，请确认 Ollama 已启动。"
    ∧ ask [hit0] "q" (CompletionOutcome.failure "boom")
      = "⚠ 生成回答时出错：" ++ "boom" :=
  ⟨(ask_error_handling [] "q" CompletionOutcome.connectionError "boom").1 rfl,
   (ask_error_handling [hit0] "q" CompletionOutcome.connectionError "boom").2.1
     (List.cons_ne_nil _ _),
   (ask_error_handling [hit0] "q" (CompletionOutcome.failure "boom") "boom").2.2
     (List.cons_ne_nil _ _)⟩

/-- C10: `classify` recomputes `is_breaking_change` on every record: after
it, the flag is true iff some phrase of the fixed lexicon occurs in the
lower-cased `title + " " + content`; in particular a record arriving with
the flag already set is reset to `false` when no phrase matches. -/
theorem breaking_flag_recomputed :
    (∀ (kw : List (String × List String)) (item : Item),
      (classifyItem kw item).is_breaking_change = true ↔
        ∃ p ∈ BREAKING_KEYWORDS,
          occursIn p (pyLower (item.title ++ " " ++ item.content)) = true)
    ∧ (classifyItem (mkClassifierKw []) resetItem).is_breaking_change = false := by
  constructor
  · intro kw item
    show (BREAKING_KEYWORDS.any
        fun k => occursIn k (pyLower (item.title ++ " " ++ item.content))) = true ↔ _
    exact List.any_eq_true
  · decide

end AITrend
